import Mathlib

/-!
# Task list manager (`src/app.js`)

A shallow embedding of the in-memory state of `app.js` (the variables `todos`,
`currentPage`, `editingTodoId` and the values of the form inputs), of the view
computed by `renderTodos` / `renderPagination`, and of the event handlers
(`fetchTodos`, the form submit handler, `deleteTodo`, the edit and page buttons,
the filter inputs).

Conventions of the embedding:

* a JS string is a Lean `String`; `String.prototype.includes` and
  `String.prototype.trim` are written out on the list of characters;
* `String.prototype.toLowerCase` is a built-in of the host and is taken as a
  function `lower : String → String`; the general statements hold for every
  such function. Concrete evaluations use `asciiLower`, which agrees with the
  built-in on ASCII strings, and `toLowerCaseLatin1` / `toUpperCaseLatin1`,
  which agree with `toLowerCase` / `toUpperCase` on strings of characters up to
  U+00FF;
* a `Date` is its time value in milliseconds (`TimeValue`, `none` for an
  invalid date); the `createdAt` of a todo is always a valid date;
* a date input is represented by `none` when its value is the empty string and
  by `some tv` when it is non-empty and `new Date(value)` has time value `tv`;
* the clock and `Math.random` are inputs of the operations that read them;
* an HTTP exchange is a `Response` handed to the operation; the requests an
  operation sends and the message it passes to `showError` are recorded in its
  `Outcome`.
-/

namespace TodoList

/-! ## Data model -/

/-- The page size, `const LIMIT = 10`. -/
def LIMIT : Nat := 10

/-- Time value of a `Date` in milliseconds since the epoch; `none` is the
invalid date (time value `NaN`). -/
abbrev TimeValue := Option Int

/-- A todo as the remote service sends it (a parsed JSON object): the
properties `id`, `title` and `completed`, and the remaining properties as
key / serialised value pairs. -/
structure RemoteTodo where
  id : Int
  title : String
  completed : Bool
  other : List (String × String)
deriving DecidableEq, Repr

/-- An element of the array `todos`: the properties `id`, `title` and
`completed`, the property `createdAt` (the time value of a valid `Date`), and
the remaining properties (those with another key) as key / serialised value
pairs. -/
structure Todo where
  id : Int
  title : String
  completed : Bool
  other : List (String × String)
  createdAt : Int
deriving DecidableEq, Repr

/-- The mutable state of the page: the three module variables and the values
of the four inputs the handlers read. -/
structure State where
  todos : List Todo
  currentPage : Int
  editingTodoId : Option Int
  taskInput : String
  searchInput : String
  fromDateInput : Option TimeValue
  toDateInput : Option TimeValue
deriving DecidableEq, Repr

/-- The state when the script is loaded: `todos = []`, `currentPage = 1`,
`editingTodoId = null`, with the given contents of the inputs. -/
def State.initial (task search : String) (fromD toD : Option TimeValue) : State :=
  { todos := [], currentPage := 1, editingTodoId := none,
    taskInput := task, searchInput := search, fromDateInput := fromD, toDateInput := toD }

/-! ## Built-ins used by the program -/

/-- ASCII instance of `toLowerCase`: `A`..`Z` are mapped to `a`..`z`, every
other character is kept. -/
def asciiLower (s : String) : String := ⟨s.data.map Char.toLower⟩

/-- The lower-case mapping of a character up to U+00FF: `A`..`Z`, U+00C0..U+00D6
and U+00D8..U+00DE are moved up by 0x20, every other character is kept. -/
def lowerCharLatin1 (c : Char) : Char :=
  let n := c.toNat
  if (0x41 ≤ n ∧ n ≤ 0x5A) ∨ (0xC0 ≤ n ∧ n ≤ 0xD6) ∨ (0xD8 ≤ n ∧ n ≤ 0xDE) then
    Char.ofNat (n + 0x20)
  else c

/-- The upper-case mapping of a character up to U+00FF: `a`..`z`, U+00E0..U+00F6
and U+00F8..U+00FE are moved down by 0x20, U+00DF (sharp s) becomes `SS`,
U+00B5 (micro sign) becomes U+039C, U+00FF becomes U+0178, every other
character is kept. -/
def upperCharLatin1 (c : Char) : List Char :=
  let n := c.toNat
  if (0x61 ≤ n ∧ n ≤ 0x7A) ∨ (0xE0 ≤ n ∧ n ≤ 0xF6) ∨ (0xF8 ≤ n ∧ n ≤ 0xFE) then
    [Char.ofNat (n - 0x20)]
  else if n = 0xDF then ['S', 'S']
  else if n = 0xB5 then [Char.ofNat 0x39C]
  else if n = 0xFF then [Char.ofNat 0x178]
  else [c]

/-- The built-in `String.prototype.toLowerCase` on strings of characters up to
U+00FF (Basic Latin and Latin-1 Supplement), where it maps each character by
the Unicode lower-case mapping. -/
def toLowerCaseLatin1 (s : String) : String := ⟨s.data.map lowerCharLatin1⟩

/-- The built-in `String.prototype.toUpperCase` on strings of characters up to
U+00FF, where it maps each character by the Unicode upper-case mapping. -/
def toUpperCaseLatin1 (s : String) : String := ⟨s.data.flatMap upperCharLatin1⟩

/-- The test of `String.prototype.includes` on character lists: `search` occurs in `s` at
some position `k ≥ 0`. -/
def includesChars (search : List Char) : List Char → Bool
  | [] => search.isEmpty
  | c :: rest => search.isPrefixOf (c :: rest) || includesChars search rest

/-- The call `s.includes(search)`. -/
def includes (s search : String) : Bool := includesChars search.data s.data

/-- White space and line terminators removed by `String.prototype.trim`. -/
def isJsWhiteSpace (c : Char) : Bool :=
  let n := c.toNat
  n = 0x09 || n = 0x0A || n = 0x0B || n = 0x0C || n = 0x0D || n = 0x20 || n = 0xA0 ||
  n = 0x1680 || (0x2000 ≤ n && n ≤ 0x200A) || n = 0x2028 || n = 0x2029 || n = 0x202F ||
  n = 0x205F || n = 0x3000 || n = 0xFEFF

/-- The call `s.trim()`: white space removed from both ends. -/
def trim (s : String) : String :=
  ⟨((s.data.dropWhile isJsWhiteSpace).reverse.dropWhile isJsWhiteSpace).reverse⟩

/-- The comparison `a >= b` on two dates: the time values are compared, and a comparison with
an invalid date is false. -/
def dateGe : TimeValue → TimeValue → Bool
  | some a, some b => decide (b ≤ a)
  | _, _ => false

/-- The comparison `a <= b` on two dates. -/
def dateLe : TimeValue → TimeValue → Bool
  | some a, some b => decide (a ≤ b)
  | _, _ => false

/-- The method `Array.prototype.slice(start, end)`: a negative index counts from the end,
both indices are clamped to the length. -/
def slice {α : Type} (xs : List α) (start stop : Int) : List α :=
  let len : Int := xs.length
  let k : Int := if start < 0 then max (len + start) 0 else min start len
  let fin : Int := if stop < 0 then max (len + stop) 0 else min stop len
  (xs.drop k.toNat).take (fin - k).toNat

/-- The method `Array.prototype.findIndex`: the first index whose element satisfies `p`,
or `-1`. -/
def findIndex {α : Type} (p : α → Bool) : List α → Int
  | [] => -1
  | x :: xs => if p x then 0 else
      let i := findIndex p xs
      if i < 0 then -1 else i + 1

/-- The value of `Math.ceil(total / limit)` for a length `total`. -/
def ceilDiv (total limit : Nat) : Nat :=
  if total % limit = 0 then total / limit else total / limit + 1

/-! ## The view: `renderTodos` and `renderPagination` -/

/-- The first `filter` of `renderTodos`: the lower-cased title includes the
lower-cased search string. -/
def textFiltered (lower : String → String) (s : State) : List Todo :=
  s.todos.filter (fun todo => includes (lower todo.title) (lower s.searchInput))

/-- The predicate of the second `filter` of `renderTodos`:
`(!from || createdAt >= from) && (!to || createdAt <= to)`, where `from` and
`to` are `null` for an empty input. -/
def dateMatches (fromD toD : Option TimeValue) (todo : Todo) : Bool :=
  let createdAt : TimeValue := some todo.createdAt
  (match fromD with
    | none => true
    | some f => dateGe createdAt f) &&
  (match toD with
    | none => true
    | some t => dateLe createdAt t)

/-- The constant `filtered` of `renderTodos`. -/
def filtered (lower : String → String) (s : State) : List Todo :=
  (textFiltered lower s).filter (dateMatches s.fromDateInput s.toDateInput)

/-- The page buttons created by `renderPagination(total)`: one button for each
`i` with `1 <= i <= Math.ceil(total / LIMIT)`, in increasing order. -/
def renderPagination (total : Nat) : List Int :=
  (List.range (ceilDiv total LIMIT)).map (fun (i : Nat) => (i : Int) + 1)

/-- What `renderTodos` puts on the page: the todos of the current page (one
list item with an Edit and a Delete button each), whether the
`No tasks found` item is shown instead, and the page buttons. -/
structure View where
  items : List Todo
  placeholder : Bool
  pageButtons : List Int
deriving DecidableEq, Repr

/-- The function `renderTodos`. -/
def renderTodos (lower : String → String) (s : State) : View :=
  let filteredTodos := filtered lower s
  let start : Int := (s.currentPage - 1) * LIMIT
  let paginated := slice filteredTodos start (start + LIMIT)
  { items := paginated
    placeholder := decide (paginated.length = 0)
    pageButtons := renderPagination filteredTodos.length }

/-! ## The operations -/

/-- The result of a `fetch` followed by `res.json()`: a response with
`res.ok` true and its parsed body, a response with `res.ok` false, or a
rejected promise with the message of the error. -/
inductive Response (α : Type) where
  | ok (body : α)
  | notOk
  | failed (message : String)
deriving DecidableEq, Repr

/-- A request sent with `fetch`. -/
inductive Request where
  | getTodos
  | postTodo (title : String)
  | putTodo (id : Int) (title : String)
  | deleteTodo (id : Int)
deriving DecidableEq, Repr

/-- The argument of `showError`: the message of an error created by the
program or carried by a rejected promise, or the message of the `TypeError`
raised by the engine for a property access on `undefined`. -/
inductive Shown where
  | message (text : String)
  | typeError
deriving DecidableEq, Repr

/-- What an operation leaves behind: the state, the requests it sent, the
error it reported (if any), and whether it called `renderTodos`. -/
structure Outcome where
  state : State
  requests : List Request
  error : Option Shown
  rendered : Bool
deriving DecidableEq, Repr

/-- The function `generateCreatedDate`, with `now` the time value of
`new Date()` and `r` the value of `Math.floor(Math.random() * 10000000000)`. -/
def generateCreatedDate (now : Int) (r : Nat) : Int := now - r

/-- The object `{ ...todo, createdAt }`, also the result of the assignment
`todo.createdAt = createdAt`: every property of `todo` is kept, except that a
`createdAt` property `todo` already carries is overwritten by the new value. -/
def withCreatedAt (todo : RemoteTodo) (createdAt : Int) : Todo :=
  { id := todo.id, title := todo.title, completed := todo.completed
    other := todo.other.filter (fun kv => decide (kv.1 ≠ "createdAt"))
    createdAt := createdAt }

/-- The `data.map(...)` of `fetchTodos`, from index `i` on: the `i`-th call of
`generateCreatedDate` reads the clock value `clock i` and the random value
`random i`. -/
def mapCreatedAt (clock : Nat → Int) (random : Nat → Nat) : Nat → List RemoteTodo → List Todo
  | _, [] => []
  | i, todo :: rest =>
      withCreatedAt todo (generateCreatedDate (clock i) (random i)) ::
        mapCreatedAt clock random (i + 1) rest

/-- The function `fetchTodos`. -/
def fetchTodos (clock : Nat → Int) (random : Nat → Nat) (resp : Response (List RemoteTodo))
    (s : State) : Outcome :=
  match resp with
  | .ok data =>
      { state := { s with todos := mapCreatedAt clock random 0 data }
        requests := [.getTodos], error := none, rendered := true }
  | .notOk =>
      { state := s, requests := [.getTodos]
        error := some (.message "Failed to fetch todos"), rendered := false }
  | .failed m =>
      { state := s, requests := [.getTodos], error := some (.message m), rendered := false }

/-- The assignment `todos[index].title = title` for an index inside the array. -/
def setTitleAt (title : String) : Nat → List Todo → List Todo
  | _, [] => []
  | 0, t :: ts => { t with title := title } :: ts
  | n + 1, t :: ts => t :: setTitleAt title n ts

/-- The submit handler of the form; `now` is the time value of `new Date()`
in the create branch. -/
def submit (now : Int) (resp : Response RemoteTodo) (s : State) : Outcome :=
  let newTask := trim s.taskInput
  if newTask = "" then
    { state := s, requests := [], error := none, rendered := false }
  else
    match s.editingTodoId with
    | some editing =>
        match resp with
        | .ok updatedTodo =>
            let index := findIndex (fun t => decide (t.id = editing)) s.todos
            if index < 0 then
              { state := s, requests := [.putTodo editing newTask]
                error := some .typeError, rendered := false }
            else
              { state := { s with
                  todos := setTitleAt updatedTodo.title index.toNat s.todos
                  editingTodoId := none
                  taskInput := "" }
                requests := [.putTodo editing newTask], error := none, rendered := true }
        | .notOk =>
            { state := s, requests := [.putTodo editing newTask]
              error := some (.message "Failed to update todo"), rendered := false }
        | .failed m =>
            { state := s, requests := [.putTodo editing newTask]
              error := some (.message m), rendered := false }
    | none =>
        match resp with
        | .ok data =>
            { state := { s with
                todos := withCreatedAt data now :: s.todos
                currentPage := 1
                taskInput := "" }
              requests := [.postTodo newTask], error := none, rendered := true }
        | .notOk =>
            { state := s, requests := [.postTodo newTask]
              error := some (.message "Failed to add todo"), rendered := false }
        | .failed m =>
            { state := s, requests := [.postTodo newTask]
              error := some (.message m), rendered := false }

/-- The function `deleteTodo(id)`; `confirmDelete` is the answer to the
`confirm` dialog. -/
def deleteTodo (confirmDelete : Bool) (resp : Response Unit) (id : Int) (s : State) : Outcome :=
  if !confirmDelete then
    { state := s, requests := [], error := none, rendered := false }
  else
    match resp with
    | .ok _ =>
        { state := { s with todos := s.todos.filter (fun t => decide (t.id ≠ id)) }
          requests := [.deleteTodo id], error := none, rendered := true }
    | .notOk =>
        { state := s, requests := [.deleteTodo id]
          error := some (.message "Failed to delete todo"), rendered := false }
    | .failed m =>
        { state := s, requests := [.deleteTodo id], error := some (.message m), rendered := false }

/-- The `onclick` of the Edit button of `todo`. -/
def editClick (todo : Todo) (s : State) : State :=
  { s with taskInput := todo.title, editingTodoId := some todo.id }

/-- The `onclick` of the page button `i`. -/
def pageClick (i : Int) (s : State) : State :=
  { s with currentPage := i }

/-- The `input` handler of the search box, after the value became `q`. -/
def searchChanged (q : String) (s : State) : State :=
  { s with searchInput := q, currentPage := 1 }

/-- The `change` handler of the from-date input, after the value became `v`. -/
def fromDateChanged (v : Option TimeValue) (s : State) : State :=
  { s with fromDateInput := v, currentPage := 1 }

/-- The `change` handler of the to-date input, after the value became `v`. -/
def toDateChanged (v : Option TimeValue) (s : State) : State :=
  { s with toDateInput := v, currentPage := 1 }

/-! ## Notions used in the statements -/

/-- Replace the title of a todo by `f title`. -/
def retitle (f : String → String) (t : Todo) : Todo := { t with title := f t.title }

/-- The date condition in the words of the specification: the from-date input
is empty or holds a date not after `createdAt`, and the to-date input is empty
or holds a date not before `createdAt`. -/
def InDateRange (fromD toD : Option TimeValue) (createdAt : Int) : Prop :=
  (fromD = none ∨ ∃ f, fromD = some (some f) ∧ f ≤ createdAt) ∧
  (toD = none ∨ ∃ t, toD = some (some t) ∧ createdAt ≤ t)

/-- The date condition is decidable. -/
instance instDecidableInDateRange (fromD toD : Option TimeValue) (createdAt : Int) :
    Decidable (InDateRange fromD toD createdAt) :=
  @instDecidableAnd _ _
    (match fromD with
      | none => isTrue (Or.inl rfl)
      | some none => isFalse (by simp)
      | some (some f) => decidable_of_iff (f ≤ createdAt) (by simp))
    (match toD with
      | none => isTrue (Or.inl rfl)
      | some none => isFalse (by simp)
      | some (some t) => decidable_of_iff (createdAt ≤ t) (by simp))

/-- The todos shown when the current page is `p`. -/
def pageItems (lower : String → String) (s : State) (p : Nat) : List Todo :=
  (renderTodos lower { s with currentPage := (p : Int) }).items

/-- A task is blank when it is empty or holds white space only. -/
def isBlank (s : String) : Bool := s.data.all isJsWhiteSpace

/-- The remote part of a todo: every property but `createdAt`. -/
def Todo.toRemote (t : Todo) : RemoteTodo :=
  { id := t.id, title := t.title, completed := t.completed, other := t.other }

/-- A remote todo without its `createdAt` property, if it carries one. -/
def RemoteTodo.withoutCreatedAt (d : RemoteTodo) : RemoteTodo :=
  { d with other := d.other.filter (fun kv => decide (kv.1 ≠ "createdAt")) }

/-- A remote todo carries no `createdAt` property. -/
def RemoteTodo.NoCreatedAt (d : RemoteTodo) : Prop :=
  ∀ kv ∈ d.other, kv.1 ≠ "createdAt"

/-! ## Sequences of user actions -/

/-- A user action whose operation completes: typing in the task input,
submitting the form with an ok response, clicking the Delete button of a shown
todo (confirmed, ok response), clicking the Edit button of a shown todo,
clicking a shown page button, changing the search box or a date input. -/
inductive Event where
  | typeTask (text : String)
  | submitOk (now : Int) (body : RemoteTodo)
  | deleteOk (todo : Todo)
  | edit (todo : Todo)
  | page (i : Int)
  | search (q : String)
  | fromDate (v : Option TimeValue)
  | toDate (v : Option TimeValue)
deriving DecidableEq, Repr

/-- The state after a user action, or `none` when the action is not possible in
the state: the button is not among those `renderTodos` shows, or the submit
does not complete. -/
def step (lower : String → String) (s : State) : Event → Option State
  | .typeTask text => some { s with taskInput := text }
  | .submitOk now body =>
      let o := submit now (.ok body) s
      if o.rendered then some o.state else none
  | .deleteOk todo =>
      if todo ∈ (renderTodos lower s).items then
        some (deleteTodo true (.ok ()) todo.id s).state
      else none
  | .edit todo =>
      if todo ∈ (renderTodos lower s).items then some (editClick todo s) else none
  | .page i =>
      if i ∈ (renderTodos lower s).pageButtons then some (pageClick i s) else none
  | .search q => some (searchChanged q s)
  | .fromDate v => some (fromDateChanged v s)
  | .toDate v => some (toDateChanged v s)

/-- The state after a sequence of user actions, `none` when one of them is not
possible. -/
def run (lower : String → String) : State → List Event → Option State
  | s, [] => some s
  | s, e :: es =>
      match step lower s e with
      | some s2 => run lower s2 es
      | none => none

/-- The state after the script is loaded with empty inputs and `fetchTodos`
got the ok response `data`. -/
def loaded (clock : Nat → Int) (random : Nat → Nat) (data : List RemoteTodo) : State :=
  (fetchTodos clock random (.ok data) (State.initial "" "" none none)).state

/-- A response with the eleven todos of ids 1 to 11. -/
def elevenTodos : List RemoteTodo :=
  (List.range 11).map
    (fun (i : Nat) => { id := (i : Int) + 1, title := "task", completed := false, other := [] })

/-- The current page is in range: `1 <= currentPage <= max(1, ceil(n / 10))`
with `n` the number of todos matching the filters. -/
def PageValid (lower : String → String) (s : State) : Prop :=
  1 ≤ s.currentPage ∧
    s.currentPage ≤ max 1 ((ceilDiv (filtered lower s).length LIMIT : Nat) : Int)

/-- The range condition on the current page is decidable. -/
instance instDecidablePageValid (lower : String → String) (s : State) :
    Decidable (PageValid lower s) :=
  inferInstanceAs (Decidable (_ ∧ _))

/-- The edit target exists: when `editingTodoId` is not null, some todo of
`todos` has that id. -/
def EditTargetExists (s : State) : Prop :=
  ∀ id, s.editingTodoId = some id → ∃ t ∈ s.todos, t.id = id

/-! ## Sample data -/

/-- Three todos with mixed-case titles. -/
def sampleTodos : List Todo :=
  [⟨1, "Buy Milk", false, [], 100⟩, ⟨2, "walk dog", true, [], 200⟩,
    ⟨3, "MILK run", false, [], 300⟩]

/-- A state with the sample todos, the search string `milk`, a non-blank task
and no edit in progress. -/
def sampleState : State :=
  { todos := sampleTodos, currentPage := 1, editingTodoId := none, taskInput := "  call mum ",
    searchInput := "milk", fromDateInput := none, toDateInput := none }

/-- The sample state while the todo of id 2 is being edited. -/
def editingState : State := { sampleState with editingTodoId := some 2 }

/-- A state with one todo titled `Straße`, the search string `straße` and
empty date inputs. -/
def strasseState : State :=
  { todos := [⟨1, "Straße", false, [], 0⟩], currentPage := 1, editingTodoId := none,
    taskInput := "", searchInput := "straße", fromDateInput := none, toDateInput := none }

/-- A response whose only todo carries a `createdAt` property of its own. -/
def datedResponse : List RemoteTodo :=
  [⟨1, "task", false, [("userId", "1"), ("createdAt", "1577836800000")]⟩]

/-- The sample state with a task of white space only. -/
def blankState : State := { sampleState with taskInput := " \t " }

/-- The sample state with an empty search string and the from-date after the
to-date. -/
def crossedState : State :=
  { sampleState with searchInput := "", fromDateInput := some (some 250),
                     toDateInput := some (some 150) }

/-! # Theorems -/

/-! ## Lemmas on the built-ins -/

theorem includesChars_iff (search s : List Char) :
    includesChars search s = true ↔ search <:+: s := by
  induction s with
  | nil =>
      cases search <;> simp [includesChars]
  | cons c rest ih =>
      simp only [includesChars, Bool.or_eq_true, ih, List.isPrefixOf_iff_prefix,
        List.infix_cons_iff]

theorem includes_iff (s search : String) :
    includes s search = true ↔ search.data <:+: s.data :=
  includesChars_iff search.data s.data

theorem includes_empty (s : String) : includes s "" = true := by
  rw [includes_iff]
  exact List.nil_infix

theorem filter_map_comm {α : Type} (p : α → Bool) (g : α → α) (h : ∀ x, p (g x) = p x)
    (xs : List α) : (xs.map g).filter p = (xs.filter p).map g := by
  induction xs with
  | nil => rfl
  | cons x xs ih =>
      by_cases hx : p x = true
      · simp [List.filter_cons, h, hx, ih]
      · simp [List.filter_cons, h, hx, ih]

/-! ## Text and date filtering -/

theorem filtered_no_dates (lower : String → String) (s : State)
    (hf : s.fromDateInput = none) (ht : s.toDateInput = none) :
    filtered lower s = textFiltered lower s := by
  unfold filtered
  rw [hf, ht]
  exact List.filter_eq_self.2 (fun _ _ => rfl)

/-- C1: with both date inputs empty, `filtered` is the sublist of `todos`, in
the original order, of the todos whose lower-cased title contains the
lower-cased search string as a contiguous substring; an empty search string
keeps every todo; replacing the search string by one with the same lower-case
form does not change the result; and replacing every title by one with the
same lower-case form selects the same todos. -/
theorem C1_text_filter (lower : String → String) (hempty : lower "" = "") (s : State)
    (hf : s.fromDateInput = none) (ht : s.toDateInput = none) :
    filtered lower s
        = s.todos.filter
            (fun todo => decide ((lower s.searchInput).data <:+: (lower todo.title).data))
      ∧ (filtered lower s).Sublist s.todos
      ∧ (∀ todo, todo ∈ filtered lower s ↔
          todo ∈ s.todos ∧ (lower s.searchInput).data <:+: (lower todo.title).data)
      ∧ (s.searchInput = "" → filtered lower s = s.todos)
      ∧ (∀ q, lower q = lower s.searchInput →
          filtered lower { s with searchInput := q } = filtered lower s)
      ∧ (∀ f : String → String, (∀ x, lower (f x) = lower x) →
          filtered lower { s with todos := s.todos.map (retitle f) }
            = (filtered lower s).map (retitle f)) := by
  have key : filtered lower s
      = s.todos.filter
          (fun todo => decide ((lower s.searchInput).data <:+: (lower todo.title).data)) := by
    rw [filtered_no_dates lower s hf ht]
    unfold textFiltered
    apply List.filter_congr
    intro todo _
    rw [Bool.eq_iff_iff, includes_iff]
    simp
  refine ⟨key, ?_, ?_, ?_, ?_, ?_⟩
  · rw [key]
    exact List.filter_sublist _
  · intro todo
    rw [key]
    simp [List.mem_filter]
  · intro hq
    rw [filtered_no_dates lower s hf ht]
    unfold textFiltered
    rw [hq, hempty]
    exact List.filter_eq_self.2 (fun t _ => includes_empty _)
  · intro q hq
    rw [filtered_no_dates lower s hf ht,
      filtered_no_dates lower { s with searchInput := q } hf ht]
    unfold textFiltered
    simp only [hq]
  · intro f hfx
    rw [filtered_no_dates lower s hf ht,
      filtered_no_dates lower { s with todos := s.todos.map (retitle f) } hf ht]
    unfold textFiltered
    exact filter_map_comm _ _ (fun t => by simp [retitle, hfx]) s.todos

theorem dateMatches_iff (fromD toD : Option TimeValue) (todo : Todo) :
    dateMatches fromD toD todo = true ↔ InDateRange fromD toD todo.createdAt := by
  unfold dateMatches InDateRange
  rcases fromD with _ | _ | f <;> rcases toD with _ | _ | t <;> simp [dateGe, dateLe]

/-- C2: a todo that passes the text filter is kept iff the from-date input is
empty or `createdAt >= from`, and the to-date input is empty or
`createdAt <= to`, with both bounds inclusive; the kept todos stay in order;
an empty bound imposes no constraint; and when `from > to` no todo is kept. -/
theorem C2_date_filter (lower : String → String) (s : State) :
    filtered lower s
        = (textFiltered lower s).filter
            (fun todo => decide (InDateRange s.fromDateInput s.toDateInput todo.createdAt))
      ∧ (∀ todo, todo ∈ filtered lower s ↔
          todo ∈ textFiltered lower s ∧
            InDateRange s.fromDateInput s.toDateInput todo.createdAt)
      ∧ (∀ todo : Todo, s.fromDateInput = none →
          (InDateRange s.fromDateInput s.toDateInput todo.createdAt ↔
            (s.toDateInput = none ∨ ∃ t, s.toDateInput = some (some t) ∧ todo.createdAt ≤ t)))
      ∧ (∀ todo : Todo, s.toDateInput = none →
          (InDateRange s.fromDateInput s.toDateInput todo.createdAt ↔
            (s.fromDateInput = none ∨
              ∃ f, s.fromDateInput = some (some f) ∧ f ≤ todo.createdAt)))
      ∧ (∀ f t : Int, s.fromDateInput = some (some f) → s.toDateInput = some (some t) →
          (∀ todo : Todo, todo.createdAt = f ∨ todo.createdAt = t → f ≤ t →
            InDateRange s.fromDateInput s.toDateInput todo.createdAt))
      ∧ (∀ f t : Int, s.fromDateInput = some (some f) → s.toDateInput = some (some t) →
          t < f → filtered lower s = []) := by
  have key : filtered lower s
      = (textFiltered lower s).filter
          (fun todo => decide (InDateRange s.fromDateInput s.toDateInput todo.createdAt)) := by
    unfold filtered
    apply List.filter_congr
    intro todo _
    rw [Bool.eq_iff_iff, dateMatches_iff]
    simp
  refine ⟨key, ?_, ?_, ?_, ?_, ?_⟩
  · intro todo
    rw [key]
    simp [List.mem_filter]
  · intro todo hf
    simp [InDateRange, hf]
  · intro todo ht
    simp [InDateRange, ht]
  · intro f t hf ht todo hc hle
    rw [hf, ht]
    rcases hc with hc | hc <;> simp [InDateRange, hc, hle]
  · intro f t hf ht hlt
    rw [key, List.filter_eq_nil_iff]
    intro todo _
    simp only [InDateRange, hf, ht, decide_eq_true_eq]
    rintro ⟨h1, h2⟩
    rcases h1 with h1 | ⟨f', hf', hle1⟩
    · cases h1
    · rcases h2 with h2 | ⟨t', ht', hle2⟩
      · cases h2
      · cases hf'
        cases ht'
        omega

/-! ## Pagination -/

theorem slice_nat {α : Type} (xs : List α) (a b : Nat) :
    slice xs (a : Int) ((a : Int) + (b : Int)) = (xs.drop a).take b := by
  unfold slice
  have h1 : ¬ ((a : Int) < 0) := by omega
  have h2 : ¬ ((a : Int) + (b : Int) < 0) := by omega
  simp only [h1, h2, if_false]
  by_cases hle : a ≤ xs.length
  · have hk : (min (a : Int) (xs.length : Int)).toNat = a := by
      rw [min_eq_left (by omega)]
      simp
    rw [hk, List.take_eq_take, List.length_drop]
    have hm : min (a : Int) (xs.length : Int) = a := min_eq_left (by omega)
    rw [hm]
    omega
  · have hk : (min (a : Int) (xs.length : Int)).toNat = xs.length := by
      rw [min_eq_right (by omega)]
      simp
    rw [hk, List.drop_eq_nil_of_le (le_refl _), List.drop_eq_nil_of_le (by omega)]
    simp

theorem ceilDiv_eq_ceil (n : Nat) : ceilDiv n LIMIT = ⌈(n : ℚ) / (LIMIT : ℚ)⌉₊ := by
  symm
  unfold ceilDiv LIMIT
  have hn := Nat.div_add_mod n 10
  have hlt := Nat.mod_lt n (show 10 > 0 by decide)
  have hq : (n : ℚ) = 10 * ((n / 10 : ℕ) : ℚ) + ((n % 10 : ℕ) : ℚ) := by
    exact_mod_cast hn.symm
  split_ifs with h
  · have : (n : ℚ) / ((10 : ℕ) : ℚ) = ((n / 10 : ℕ) : ℚ) := by
      rw [hq, h]
      push_cast
      ring
    rw [this, Nat.ceil_natCast]
  · have hpos : (1 : ℚ) ≤ ((n % 10 : ℕ) : ℚ) := by
      exact_mod_cast Nat.one_le_iff_ne_zero.2 h
    have hlt10 : ((n % 10 : ℕ) : ℚ) ≤ 9 := by
      exact_mod_cast Nat.lt_succ_iff.1 hlt
    apply le_antisymm
    · rw [Nat.ceil_le]
      push_cast
      rw [div_le_iff₀ (by norm_num)]
      linarith
    · rw [Nat.succ_le, Nat.lt_ceil]
      push_cast
      rw [lt_div_iff₀ (by norm_num)]
      linarith

theorem ceilDiv_bounds (n : Nat) :
    n ≤ ceilDiv n LIMIT * 10 ∧ (0 < n → (ceilDiv n LIMIT - 1) * 10 < n) ∧
      (n = 0 → ceilDiv n LIMIT = 0) := by
  unfold ceilDiv LIMIT
  split_ifs with h <;> omega

theorem pages_concat {α : Type} (k : Nat) :
    ∀ xs : List α, xs.length ≤ k * 10 →
      (List.range k).flatMap (fun i => (xs.drop (i * 10)).take 10) = xs := by
  induction k with
  | zero =>
      intro xs h
      have : xs = [] := List.length_eq_zero.1 (by omega)
      simp [this]
  | succ k ih =>
      intro xs h
      rw [List.range_succ_eq_map, List.flatMap_cons, List.flatMap_map]
      have hrec := ih (xs.drop 10) (by rw [List.length_drop]; omega)
      have hfun : (fun i => ((xs.drop 10).drop (i * 10)).take 10)
          = (fun i => (xs.drop (Nat.succ i * 10)).take 10) := by
        funext i
        rw [List.drop_drop]
        congr 2
        omega
      rw [← hfun, hrec]
      simp

theorem pageItems_eq (lower : String → String) (s : State) (p : Nat) (hp : 1 ≤ p) :
    pageItems lower s p = ((filtered lower s).drop ((p - 1) * 10)).take 10 := by
  have h := slice_nat (filtered lower s) ((p - 1) * 10) 10
  have hstart : ((p : Int) - 1) * ((LIMIT : Nat) : Int) = (((p - 1) * 10 : Nat) : Int) := by
    unfold LIMIT
    push_cast [Nat.cast_sub hp]
    ring
  have hlim : ((LIMIT : Nat) : Int) = ((10 : Nat) : Int) := rfl
  rw [← h]
  show slice (filtered lower s) (((p : Int) - 1) * ((LIMIT : Nat) : Int))
      (((p : Int) - 1) * ((LIMIT : Nat) : Int) + ((LIMIT : Nat) : Int)) = _
  rw [hstart, hlim]

/-- C3: with `pages = Math.ceil(n / 10)` as computed by `renderPagination`, the
page buttons are `1..pages`; the slice shown for page `p` is
`filtered[(p-1)*10 .. (p-1)*10+10)`; every page `p` in `1..pages` holds between
1 and 10 todos, every page before the last exactly 10; the slices of the pages
`1..pages` concatenated in order give back `filtered`; and every position of
`filtered` is shown on exactly one page. -/
theorem C3_pagination (lower : String → String) (s : State) :
    ceilDiv (filtered lower s).length LIMIT
        = ⌈((filtered lower s).length : ℚ) / (LIMIT : ℚ)⌉₊
      ∧ (renderTodos lower s).pageButtons
          = (List.range (ceilDiv (filtered lower s).length LIMIT)).map
              (fun (i : Nat) => (i : Int) + 1)
      ∧ (∀ p : Nat, 1 ≤ p →
          pageItems lower s p = ((filtered lower s).drop ((p - 1) * 10)).take 10)
      ∧ (∀ p : Nat, 1 ≤ p → p ≤ ceilDiv (filtered lower s).length LIMIT →
          1 ≤ (pageItems lower s p).length ∧ (pageItems lower s p).length ≤ 10)
      ∧ (∀ p : Nat, 1 ≤ p → p < ceilDiv (filtered lower s).length LIMIT →
          (pageItems lower s p).length = 10)
      ∧ (List.range (ceilDiv (filtered lower s).length LIMIT)).flatMap
          (fun i => pageItems lower s (i + 1)) = filtered lower s
      ∧ (∀ (i : Nat) (hi : i < (filtered lower s).length),
          ∃! p : Nat, 1 ≤ p ∧ p ≤ ceilDiv (filtered lower s).length LIMIT ∧
            ∃ (j : Nat) (hj : j < (pageItems lower s p).length),
              (p - 1) * 10 + j = i ∧ (pageItems lower s p)[j] = (filtered lower s)[i]) := by
  have hb : ∀ n : Nat, ceilDiv n LIMIT = (n + 9) / 10 := by
    intro n
    unfold ceilDiv LIMIT
    split_ifs with h <;> omega
  have hlen : ∀ p : Nat, 1 ≤ p →
      (pageItems lower s p).length = min 10 ((filtered lower s).length - (p - 1) * 10) := by
    intro p hp
    rw [pageItems_eq lower s p hp, List.length_take, List.length_drop]
  refine ⟨ceilDiv_eq_ceil _, rfl, fun p hp => pageItems_eq lower s p hp, ?_, ?_, ?_, ?_⟩
  · intro p hp hpp
    rw [hlen p hp]
    rw [hb] at hpp
    omega
  · intro p hp hpp
    rw [hlen p hp]
    rw [hb] at hpp
    omega
  · have hfun : (fun i => pageItems lower s (i + 1))
        = (fun i => ((filtered lower s).drop (i * 10)).take 10) := by
      funext i
      rw [pageItems_eq lower s (i + 1) (by omega)]
      simp
    rw [hfun]
    exact pages_concat _ _ (ceilDiv_bounds _).1
  · intro i hi
    refine ⟨i / 10 + 1, ⟨by omega, ?_, i % 10, ?_, ?_, ?_⟩, ?_⟩
    · rw [hb]
      omega
    · rw [hlen _ (by omega)]
      simp only [Nat.add_sub_cancel]
      omega
    · simp only [Nat.add_sub_cancel]
      omega
    · simp only [pageItems_eq lower s (i / 10 + 1) (by omega), List.getElem_take,
        List.getElem_drop, Nat.add_sub_cancel]
      congr 1
      omega
    · rintro q ⟨hq1, _, j, hj, hji, _⟩
      rw [hlen q hq1] at hj
      omega

/-! ## Lemmas for the operations -/

theorem trim_eq_empty_iff (s : String) : trim s = "" ↔ isBlank s = true := by
  unfold trim isBlank
  rw [String.ext_iff, List.all_eq_true]
  show ((s.data.dropWhile isJsWhiteSpace).reverse.dropWhile isJsWhiteSpace).reverse = [] ↔ _
  rw [List.reverse_eq_nil_iff, List.dropWhile_eq_nil_iff]
  constructor
  · intro h
    by_cases hd : s.data.dropWhile isJsWhiteSpace = []
    · exact List.dropWhile_eq_nil_iff.1 hd
    · have hnot := List.head_dropWhile_not isJsWhiteSpace s.data hd
      have hmem : (s.data.dropWhile isJsWhiteSpace).head hd
          ∈ (s.data.dropWhile isJsWhiteSpace).reverse :=
        List.mem_reverse.2 (List.head_mem hd)
      rw [h _ hmem] at hnot
      cases hnot
  · intro h x hx
    exact h x ((List.dropWhile_sublist _).subset (List.mem_reverse.1 hx))

theorem findIndex_spec {α : Type} (p : α → Bool) (xs : List α) :
    (findIndex p xs = -1 ∧ ∀ x ∈ xs, p x = false) ∨
      ∃ i : Nat, findIndex p xs = (i : Int) ∧ ∃ h : i < xs.length,
        p (xs.get ⟨i, h⟩) = true ∧ ∀ (j : Nat) (hj : j < i), p (xs.get ⟨j, by omega⟩) = false := by
  induction xs with
  | nil => exact Or.inl ⟨rfl, by simp⟩
  | cons x xs ih =>
      by_cases hx : p x = true
      · refine Or.inr ⟨0, by simp [findIndex, hx], by simp, by simpa using hx, ?_⟩
        intro j hj
        omega
      · have hx' : p x = false := by simpa using hx
        rcases ih with ⟨hneg, hall⟩ | ⟨i, hi, hlt, hpi, hbefore⟩
        · refine Or.inl ⟨by simp [findIndex, hx', hneg], ?_⟩
          intro y hy
          rcases List.mem_cons.1 hy with rfl | hy
          · exact hx'
          · exact hall y hy
        · refine Or.inr ⟨i + 1, ?_, by simpa using hlt, by simpa using hpi, ?_⟩
          · have : ¬ ((i : Int) < 0) := by omega
            simp [findIndex, hx', hi, this]
          · intro j hj
            cases j with
            | zero => simpa using hx'
            | succ j => simpa using hbefore j (by omega)

theorem setTitleAt_eq_set (title : String) (xs : List Todo) (i : Nat) (h : i < xs.length) :
    setTitleAt title i xs = xs.set i { xs.get ⟨i, h⟩ with title := title } := by
  induction xs generalizing i with
  | nil => simp at h
  | cons x xs ih =>
      cases i with
      | zero => simp [setTitleAt]
      | succ i =>
          have h' : i < xs.length := by simpa using h
          simp [setTitleAt, ih i h']

theorem mapCreatedAt_length (clock : Nat → Int) (random : Nat → Nat) (data : List RemoteTodo) :
    ∀ k, (mapCreatedAt clock random k data).length = data.length := by
  induction data with
  | nil => intro k; rfl
  | cons d ds ih => intro k; simp [mapCreatedAt, ih]

theorem mapCreatedAt_get (clock : Nat → Int) (random : Nat → Nat) (data : List RemoteTodo) :
    ∀ (k i : Nat) (h : i < data.length)
      (h2 : i < (mapCreatedAt clock random k data).length),
      (mapCreatedAt clock random k data).get ⟨i, h2⟩
        = withCreatedAt (data.get ⟨i, h⟩)
            (generateCreatedDate (clock (k + i)) (random (k + i))) := by
  induction data with
  | nil => intro k i h; simp at h
  | cons d ds ih =>
      intro k i h h2
      cases i with
      | zero => simp [mapCreatedAt]
      | succ i =>
          have h' : i < ds.length := by simpa using h
          have := ih (k + 1) i h' (by rw [mapCreatedAt_length]; exact h')
          simp only [mapCreatedAt, List.get_eq_getElem, List.getElem_cons_succ] at this ⊢
          rw [this]
          congr 3 <;> omega

theorem withoutCreatedAt_of_noCreatedAt (d : RemoteTodo) (h : d.NoCreatedAt) :
    d.withoutCreatedAt = d := by
  unfold RemoteTodo.withoutCreatedAt
  have : d.other.filter (fun kv => decide (kv.1 ≠ "createdAt")) = d.other :=
    List.filter_eq_self.2 (fun kv hkv => by simpa using h kv hkv)
  rw [this]

theorem mapCreatedAt_toRemote (clock : Nat → Int) (random : Nat → Nat)
    (data : List RemoteTodo) :
    ∀ k, (mapCreatedAt clock random k data).map Todo.toRemote
      = data.map RemoteTodo.withoutCreatedAt := by
  induction data with
  | nil => intro k; rfl
  | cons d ds ih =>
      intro k
      simp [mapCreatedAt, ih, Todo.toRemote, withCreatedAt, RemoteTodo.withoutCreatedAt]

/-! ## Delete, create, update, read -/

/-- C4: when `deleteTodo(id)` is confirmed and the response is ok, the new
`todos` is the old list without the todos whose id is `id`, the others kept
unchanged in their original order; no todo of the new list has that id; and
`currentPage` and `editingTodoId` are unchanged. -/
theorem C4_delete (id : Int) (s : State) :
    (deleteTodo true (.ok ()) id s).state.todos
        = s.todos.filter (fun t => decide (t.id ≠ id))
      ∧ (deleteTodo true (.ok ()) id s).state.todos.Sublist s.todos
      ∧ (∀ t, t ∈ (deleteTodo true (.ok ()) id s).state.todos ↔ t ∈ s.todos ∧ t.id ≠ id)
      ∧ (∀ t ∈ (deleteTodo true (.ok ()) id s).state.todos, t.id ≠ id)
      ∧ (deleteTodo true (.ok ()) id s).state.currentPage = s.currentPage
      ∧ (deleteTodo true (.ok ()) id s).state.editingTodoId = s.editingTodoId
      ∧ (deleteTodo true (.ok ()) id s).requests = [.deleteTodo id]
      ∧ (deleteTodo true (.ok ()) id s).error = none := by
  have key : (deleteTodo true (.ok ()) id s).state.todos
      = s.todos.filter (fun t => decide (t.id ≠ id)) := rfl
  refine ⟨key, ?_, ?_, ?_, rfl, rfl, rfl, rfl⟩
  · rw [key]
    exact List.filter_sublist _
  · intro t
    rw [key]
    simp [List.mem_filter]
  · intro t ht
    rw [key] at ht
    simpa using (List.mem_filter.1 ht).2

/-- C5: when the form is submitted with a non-blank task, `editingTodoId` null
and an ok response, the new `todos` is the todo returned by the server, with
`createdAt` set to the current time (a `createdAt` the response carries is
overwritten), followed by the old list unchanged; the length grows by one;
`currentPage` becomes 1 and `editingTodoId` stays null. -/
theorem C5_create (now : Int) (data : RemoteTodo) (s : State)
    (htask : isBlank s.taskInput = false) (hedit : s.editingTodoId = none) :
    (submit now (.ok data) s).state.todos = withCreatedAt data now :: s.todos
      ∧ (∃ t : Todo, (submit now (.ok data) s).state.todos = t :: s.todos
          ∧ t.id = data.id ∧ t.title = data.title ∧ t.completed = data.completed
          ∧ t.createdAt = now
          ∧ (∀ kv, kv ∈ t.other ↔ kv ∈ data.other ∧ kv.1 ≠ "createdAt")
          ∧ t.other.Sublist data.other
          ∧ t.toRemote = data.withoutCreatedAt
          ∧ (data.NoCreatedAt → t.toRemote = data))
      ∧ (submit now (.ok data) s).state.todos.length = s.todos.length + 1
      ∧ (submit now (.ok data) s).state.todos.head? = some (withCreatedAt data now)
      ∧ (submit now (.ok data) s).state.todos.tail = s.todos
      ∧ (submit now (.ok data) s).state.currentPage = 1
      ∧ (submit now (.ok data) s).state.editingTodoId = none
      ∧ (submit now (.ok data) s).requests = [.postTodo (trim s.taskInput)]
      ∧ (submit now (.ok data) s).error = none := by
  have hne : ¬ (trim s.taskInput = "") := by
    rw [trim_eq_empty_iff, htask]
    simp
  have htodos : (submit now (.ok data) s).state.todos = withCreatedAt data now :: s.todos := by
    simp [submit, hne, hedit]
  refine ⟨htodos, ⟨withCreatedAt data now, htodos, rfl, rfl, rfl, rfl, ?_, ?_, rfl, ?_⟩,
    ?_, ?_, ?_, ?_, ?_, ?_, ?_⟩
  · intro kv
    simp [withCreatedAt, List.mem_filter]
  · exact List.filter_sublist _
  · intro hno
    exact withoutCreatedAt_of_noCreatedAt data hno
  · rw [htodos]
    rfl
  · rw [htodos]
    rfl
  · rw [htodos]
    rfl
  · simp [submit, hne, hedit]
  · simp [submit, hne, hedit]
  · simp [submit, hne, hedit]
  · simp [submit, hne, hedit]

/-- C6: when the form is submitted with a non-blank task while `editingTodoId`
is the id of some todo of `todos`, and the response is ok, the title of the
first todo with that id becomes the title returned by the server and nothing
else in `todos` changes (length, order, the other todos, and the id,
createdAt, completed and other properties of the edited todo); `currentPage` is
unchanged and `editingTodoId` becomes null. -/
theorem C6_update (now : Int) (updated : RemoteTodo) (s : State) (editing : Int)
    (htask : isBlank s.taskInput = false) (hedit : s.editingTodoId = some editing)
    (hex : ∃ t ∈ s.todos, t.id = editing) :
    ∃ (i : Nat) (hi : i < s.todos.length),
      (s.todos.get ⟨i, hi⟩).id = editing
      ∧ (∀ (j : Nat) (hj : j < i), (s.todos.get ⟨j, by omega⟩).id ≠ editing)
      ∧ (submit now (.ok updated) s).state.todos
          = s.todos.set i { s.todos.get ⟨i, hi⟩ with title := updated.title }
      ∧ (submit now (.ok updated) s).state.todos.length = s.todos.length
      ∧ (∀ (j : Nat) (hj : j < s.todos.length)
            (hj2 : j < (submit now (.ok updated) s).state.todos.length), j ≠ i →
          (submit now (.ok updated) s).state.todos.get ⟨j, hj2⟩ = s.todos.get ⟨j, hj⟩)
      ∧ (∀ hi2 : i < (submit now (.ok updated) s).state.todos.length,
          ((submit now (.ok updated) s).state.todos.get ⟨i, hi2⟩).title = updated.title
          ∧ ((submit now (.ok updated) s).state.todos.get ⟨i, hi2⟩).id
              = (s.todos.get ⟨i, hi⟩).id
          ∧ ((submit now (.ok updated) s).state.todos.get ⟨i, hi2⟩).createdAt
              = (s.todos.get ⟨i, hi⟩).createdAt
          ∧ ((submit now (.ok updated) s).state.todos.get ⟨i, hi2⟩).completed
              = (s.todos.get ⟨i, hi⟩).completed
          ∧ ((submit now (.ok updated) s).state.todos.get ⟨i, hi2⟩).other
              = (s.todos.get ⟨i, hi⟩).other)
      ∧ (submit now (.ok updated) s).state.currentPage = s.currentPage
      ∧ (submit now (.ok updated) s).state.editingTodoId = none
      ∧ (submit now (.ok updated) s).error = none := by
  have hne : ¬ (trim s.taskInput = "") := by
    rw [trim_eq_empty_iff, htask]
    simp
  rcases findIndex_spec (fun t : Todo => decide (t.id = editing)) s.todos with
    ⟨_, hall⟩ | ⟨i, hidx, hi, hpi, hbefore⟩
  · rcases hex with ⟨t, ht, hid⟩
    have := hall t ht
    simp [hid] at this
  · have hnonneg : ¬ ((i : Int) < 0) := by omega
    have htodos : (submit now (.ok updated) s).state.todos
        = s.todos.set i { s.todos.get ⟨i, hi⟩ with title := updated.title } := by
      simp only [submit, hne, hedit, hidx, hnonneg, if_false, Int.toNat_ofNat]
      exact setTitleAt_eq_set _ _ _ hi
    refine ⟨i, hi, by simpa using hpi, ?_, htodos, ?_, ?_, ?_, ?_, ?_, ?_⟩
    · intro j hj
      simpa using hbefore j hj
    · rw [htodos, List.length_set]
    · intro j hj hj2 hji
      simp only [List.get_eq_getElem, htodos]
      rw [List.getElem_set_ne (Ne.symm hji)]
    · intro hi2
      simp [htodos]
    · simp [submit, hne, hedit, hidx, hnonneg]
    · simp [submit, hne, hedit, hidx, hnonneg]
    · simp [submit, hne, hedit, hidx, hnonneg]

/-- C7: when `fetchTodos` gets an ok response carrying a list of todos, the new
`todos` has the length and order of the response, each entry keeps every
property of the corresponding response entry other than `createdAt`, its
`createdAt` is a generated date (overwriting a `createdAt` the response entry
carries), and the previous contents of `todos` are discarded; when no response
entry carries `createdAt`, every property is kept; when the response is not
ok, `todos` (and the rest of the state) is unchanged and the error
`Failed to fetch todos` is reported. -/
theorem C7_fetch (clock : Nat → Int) (random : Nat → Nat) (s : State) :
    (∀ data : List RemoteTodo,
        (fetchTodos clock random (.ok data) s).state.todos.length = data.length
        ∧ (fetchTodos clock random (.ok data) s).state.todos.map Todo.toRemote
            = data.map RemoteTodo.withoutCreatedAt
        ∧ ((∀ d ∈ data, d.NoCreatedAt) →
            (fetchTodos clock random (.ok data) s).state.todos.map Todo.toRemote = data)
        ∧ (∀ (i : Nat) (h : i < data.length)
              (h2 : i < (fetchTodos clock random (.ok data) s).state.todos.length),
            (fetchTodos clock random (.ok data) s).state.todos.get ⟨i, h2⟩
                = withCreatedAt (data.get ⟨i, h⟩) (generateCreatedDate (clock i) (random i))
            ∧ ((fetchTodos clock random (.ok data) s).state.todos.get ⟨i, h2⟩).id
                = (data.get ⟨i, h⟩).id
            ∧ ((fetchTodos clock random (.ok data) s).state.todos.get ⟨i, h2⟩).title
                = (data.get ⟨i, h⟩).title
            ∧ ((fetchTodos clock random (.ok data) s).state.todos.get ⟨i, h2⟩).completed
                = (data.get ⟨i, h⟩).completed
            ∧ (∀ kv, kv ∈ ((fetchTodos clock random (.ok data) s).state.todos.get ⟨i, h2⟩).other
                ↔ kv ∈ (data.get ⟨i, h⟩).other ∧ kv.1 ≠ "createdAt")
            ∧ ((fetchTodos clock random (.ok data) s).state.todos.get ⟨i, h2⟩).createdAt
                = generateCreatedDate (clock i) (random i))
        ∧ (∀ s2 : State, (fetchTodos clock random (.ok data) s2).state.todos
              = (fetchTodos clock random (.ok data) s).state.todos)
        ∧ (fetchTodos clock random (.ok data) s).error = none)
      ∧ (fetchTodos clock random .notOk s).state = s
      ∧ (fetchTodos clock random .notOk s).error = some (.message "Failed to fetch todos") := by
  refine ⟨fun data => ⟨?_, ?_, ?_, ?_, fun _ => rfl, rfl⟩, rfl, rfl⟩
  · exact mapCreatedAt_length clock random data 0
  · exact mapCreatedAt_toRemote clock random data 0
  · intro hno
    have h1 : (fetchTodos clock random (.ok data) s).state.todos.map Todo.toRemote
        = data.map RemoteTodo.withoutCreatedAt := mapCreatedAt_toRemote clock random data 0
    rw [h1]
    conv_rhs => rw [← List.map_id data]
    apply List.map_congr_left
    intro d hd
    exact withoutCreatedAt_of_noCreatedAt d (hno d hd)
  · intro i h h2
    have hget : (fetchTodos clock random (.ok data) s).state.todos.get ⟨i, h2⟩
        = withCreatedAt (data.get ⟨i, h⟩) (generateCreatedDate (clock i) (random i)) := by
      have := mapCreatedAt_get clock random data 0 i h h2
      simpa using this
    refine ⟨hget, ?_, ?_, ?_, ?_, ?_⟩
    · rw [hget]; rfl
    · rw [hget]; rfl
    · rw [hget]; rfl
    · intro kv
      rw [hget]
      simp [withCreatedAt, List.mem_filter]
    · rw [hget]; rfl

/-- C8: the state is unchanged when an operation does not complete. If the
submitted task is blank, or the delete confirmation is declined, the state is
unchanged and no request is made; if the response to a create, update or
delete request is not ok, the state is unchanged and the reported error is
`Failed to add todo`, `Failed to update todo` or `Failed to delete todo`. -/
theorem C8_incomplete_operations (now : Int) (s : State) :
    (isBlank s.taskInput = true → ∀ resp : Response RemoteTodo,
        (submit now resp s).state = s ∧ (submit now resp s).requests = []
          ∧ (submit now resp s).error = none)
      ∧ (∀ (resp : Response Unit) (id : Int),
          (deleteTodo false resp id s).state = s ∧ (deleteTodo false resp id s).requests = []
            ∧ (deleteTodo false resp id s).error = none)
      ∧ (isBlank s.taskInput = false → s.editingTodoId = none →
          (submit now .notOk s).state = s
            ∧ (submit now .notOk s).error = some (.message "Failed to add todo"))
      ∧ (isBlank s.taskInput = false → s.editingTodoId ≠ none →
          (submit now .notOk s).state = s
            ∧ (submit now .notOk s).error = some (.message "Failed to update todo"))
      ∧ (∀ id : Int,
          (deleteTodo true .notOk id s).state = s
            ∧ (deleteTodo true .notOk id s).error = some (.message "Failed to delete todo")) := by
  refine ⟨?_, fun _ _ => ⟨rfl, rfl, rfl⟩, ?_, ?_, fun _ => ⟨rfl, rfl⟩⟩
  · intro hb resp
    have he : trim s.taskInput = "" := (trim_eq_empty_iff _).2 hb
    simp [submit, he]
  · intro hb hedit
    have hne : ¬ (trim s.taskInput = "") := by
      rw [trim_eq_empty_iff, hb]
      simp
    simp [submit, hne, hedit]
  · intro hb hedit
    have hne : ¬ (trim s.taskInput = "") := by
      rw [trim_eq_empty_iff, hb]
      simp
    rcases hs : s.editingTodoId with _ | editing
    · exact absurd hs hedit
    · simp [submit, hne, hs]

/-! ## Sequences of user actions -/

/-- C9, evaluated: after a successful fetch of eleven todos, a click on page
button 2 and a successful delete of the only todo shown there, `currentPage` is
still 2 while ten todos match the filters and `ceil(10 / 10) = 1`: the page is
out of range and `renderTodos` shows the `No tasks found` placeholder although
todos match. -/
theorem C9_page_out_of_range_after_delete :
    (run asciiLower (loaded (fun _ => 0) (fun _ => 0) elevenTodos)
        [.page 2, .deleteOk ⟨11, "task", false, [], 0⟩]).map
      (fun s => (s.currentPage, (filtered asciiLower s).length,
        ceilDiv (filtered asciiLower s).length LIMIT, (renderTodos asciiLower s).placeholder,
        decide (PageValid asciiLower s)))
      = some (2, 10, 1, true, false) := by
  decide

/-- C10, evaluated: after a successful fetch of one todo, a click on its Edit
button and a successful delete of it, `editingTodoId` is still its id while
`todos` is empty; the next submit takes the update branch, `findIndex` returns
`-1`, the assignment to `todos[-1].title` raises a `TypeError`, and
`editingTodoId` keeps the id. -/
theorem C10_edit_target_deleted :
    (run asciiLower
        (loaded (fun _ => 0) (fun _ => 0) [⟨1, "task", false, []⟩])
        [.edit ⟨1, "task", false, [], 0⟩, .deleteOk ⟨1, "task", false, [], 0⟩,
         .typeTask "again"]).map
      (fun s => (s.editingTodoId, s.todos,
        findIndex (fun t : Todo => decide (t.id = 1)) s.todos,
        (submit 5 (.ok ⟨1, "again", false, []⟩) s).error,
        (submit 5 (.ok ⟨1, "again", false, []⟩) s).state.editingTodoId))
      = some (some 1, [], -1, some .typeError, some 1) := by
  decide

/-! ## What the handlers do preserve -/

theorem slice_sublist {α : Type} (xs : List α) (a b : Int) : (slice xs a b).Sublist xs := by
  unfold slice
  exact (List.take_sublist _ _).trans (List.drop_sublist _ _)

theorem items_subset_todos (lower : String → String) (s : State) (todo : Todo)
    (h : todo ∈ (renderTodos lower s).items) : todo ∈ s.todos := by
  have h1 : todo ∈ filtered lower s := (slice_sublist _ _ _).subset h
  have h2 : todo ∈ textFiltered lower s := (List.filter_sublist _).subset h1
  exact (List.filter_sublist _).subset h2

theorem mem_renderPagination (total : Nat) (i : Int) :
    i ∈ renderPagination total ↔ 1 ≤ i ∧ i ≤ ((ceilDiv total LIMIT : Nat) : Int) := by
  unfold renderPagination
  simp only [List.mem_map, List.mem_range]
  constructor
  · rintro ⟨k, hk, rfl⟩
    constructor <;> omega
  · rintro ⟨h1, h2⟩
    refine ⟨(i - 1).toNat, ?_, ?_⟩ <;> omega

/-- On a valid page the `No tasks found` placeholder is shown exactly when no
todo matches the filters. -/
theorem placeholder_iff_of_pageValid (lower : String → String) (s : State)
    (h : PageValid lower s) :
    (renderTodos lower s).placeholder = true ↔ filtered lower s = [] := by
  obtain ⟨h1, h2⟩ := h
  obtain ⟨p, hp⟩ : ∃ p : Nat, s.currentPage = (p : Int) := ⟨s.currentPage.toNat, by omega⟩
  have hp1 : 1 ≤ p := by omega
  have hs : s = { s with currentPage := (p : Int) } := by rw [← hp]
  have hitems : (renderTodos lower s).items
      = ((filtered lower s).drop ((p - 1) * 10)).take 10 := by
    rw [← pageItems_eq lower s p hp1]
    unfold pageItems
    rw [← hs]
  have hb : ceilDiv (filtered lower s).length LIMIT = ((filtered lower s).length + 9) / 10 := by
    unfold ceilDiv LIMIT
    split_ifs with h <;> omega
  have hlen : (renderTodos lower s).items.length
      = min 10 ((filtered lower s).length - (p - 1) * 10) := by
    rw [hitems, List.length_take, List.length_drop]
  have hph : (renderTodos lower s).placeholder
      = decide ((renderTodos lower s).items.length = 0) := rfl
  rw [hph, decide_eq_true_eq, hlen, ← List.length_eq_zero]
  rw [hp, hb] at h2
  omega

/-- Every action other than a delete and an update keeps `currentPage` in
range. -/
theorem pageValid_step (lower : String → String) (s s2 : State) (e : Event)
    (h : PageValid lower s) (hs : step lower s e = some s2)
    (hdel : ∀ todo, e ≠ .deleteOk todo)
    (hupd : ∀ now body, e = .submitOk now body → s.editingTodoId = none) :
    PageValid lower s2 := by
  have one : ∀ t : State, t.currentPage = 1 → PageValid lower t := by
    intro t ht
    unfold PageValid
    rw [ht]
    exact ⟨le_refl _, le_max_left _ _⟩
  cases e with
  | typeTask text =>
      simp only [step, Option.some.injEq] at hs
      subst hs
      exact h
  | submitOk now body =>
      have hedit := hupd now body rfl
      simp only [step] at hs
      by_cases hb : trim s.taskInput = ""
      · simp [submit, hb] at hs
      · simp [submit, hb, hedit] at hs
        subst hs
        exact one _ rfl
  | deleteOk todo => exact absurd rfl (hdel todo)
  | edit todo =>
      simp only [step] at hs
      split_ifs at hs
      simp only [Option.some.injEq] at hs
      subst hs
      exact h
  | page i =>
      simp only [step] at hs
      split_ifs at hs with hi
      simp only [Option.some.injEq] at hs
      subst hs
      have hi2 := (mem_renderPagination _ _).1 hi
      exact ⟨hi2.1, le_trans hi2.2 (le_max_right _ _)⟩
  | search q =>
      simp only [step, Option.some.injEq] at hs
      subst hs
      exact one _ rfl
  | fromDate v =>
      simp only [step, Option.some.injEq] at hs
      subst hs
      exact one _ rfl
  | toDate v =>
      simp only [step, Option.some.injEq] at hs
      subst hs
      exact one _ rfl

/-- The state after a successful fetch is on a valid page and has no edit in
progress. -/
theorem loaded_valid (lower : String → String) (clock : Nat → Int) (random : Nat → Nat)
    (data : List RemoteTodo) :
    PageValid lower (loaded clock random data) ∧ EditTargetExists (loaded clock random data) := by
  refine ⟨⟨le_refl _, le_max_left _ _⟩, ?_⟩
  intro id hid
  cases hid

/-- Every action other than the delete of the todo being edited keeps the edit
target in `todos`. -/
theorem editTargetExists_step (lower : String → String) (s s2 : State) (e : Event)
    (h : EditTargetExists s) (hs : step lower s e = some s2)
    (hdel : ∀ todo, e = .deleteOk todo → s.editingTodoId ≠ some todo.id) :
    EditTargetExists s2 := by
  cases e with
  | typeTask text =>
      simp only [step, Option.some.injEq] at hs
      subst hs
      exact h
  | submitOk now body =>
      simp only [step] at hs
      by_cases hb : trim s.taskInput = ""
      · simp [submit, hb] at hs
      · rcases hedit : s.editingTodoId with _ | editing
        · simp [submit, hb, hedit] at hs
          subst hs
          intro id hid
          simp at hid
        · by_cases hidx : findIndex (fun t : Todo => decide (t.id = editing)) s.todos < 0
          · simp [submit, hb, hedit, hidx] at hs
          · simp [submit, hb, hedit, hidx] at hs
            subst hs
            intro id hid
            cases hid
  | deleteOk todo =>
      simp only [step] at hs
      split_ifs at hs
      simp only [Option.some.injEq] at hs
      subst hs
      intro id hid
      have hid2 : s.editingTodoId = some id := hid
      obtain ⟨t, ht, htid⟩ := h id hid2
      refine ⟨t, ?_, htid⟩
      have hne : t.id ≠ todo.id := by
        intro heq
        apply hdel todo rfl
        rw [hid2, ← heq, htid]
      exact List.mem_filter.2 ⟨ht, by simpa using hne⟩
  | edit todo =>
      simp only [step] at hs
      split_ifs at hs with hin
      simp only [Option.some.injEq] at hs
      subst hs
      intro id hid
      have hid2 : some todo.id = some id := hid
      cases hid2
      exact ⟨todo, items_subset_todos lower s todo hin, rfl⟩
  | page i =>
      simp only [step] at hs
      split_ifs at hs
      simp only [Option.some.injEq] at hs
      subst hs
      exact h
  | search q =>
      simp only [step, Option.some.injEq] at hs
      subst hs
      exact h
  | fromDate v =>
      simp only [step, Option.some.injEq] at hs
      subst hs
      exact h
  | toDate v =>
      simp only [step, Option.some.injEq] at hs
      subst hs
      exact h

/-! ## The statements on concrete inputs -/

/-- C1, the case clause as stated, evaluated: the upper-case form of `straße`
is `STRASSE`; the todo titled `Straße` is kept for the search string `straße`
and dropped for `STRASSE`, whose lower-case form is `strasse`. -/
theorem C1_case_change_counterexample :
    toUpperCaseLatin1 strasseState.searchInput = "STRASSE"
      ∧ filtered toLowerCaseLatin1 strasseState = strasseState.todos
      ∧ filtered toLowerCaseLatin1
          { strasseState with searchInput := toUpperCaseLatin1 strasseState.searchInput } = []
      ∧ filtered toLowerCaseLatin1
          { strasseState with searchInput := toUpperCaseLatin1 strasseState.searchInput }
          ≠ filtered toLowerCaseLatin1 strasseState := by
  decide

/-- C1 on the sample state: the hypotheses hold, the todos kept for the search
string `milk` are those of ids 1 and 3, and the search string `MILK`, which
has the same lower-case form, keeps the same todos. -/
theorem C1_text_filter_witness :
    toLowerCaseLatin1 "" = "" ∧ sampleState.fromDateInput = none
      ∧ sampleState.toDateInput = none
      ∧ (filtered toLowerCaseLatin1 sampleState).map (fun t => t.id) = [1, 3]
      ∧ toUpperCaseLatin1 sampleState.searchInput = "MILK"
      ∧ filtered toLowerCaseLatin1
          { sampleState with searchInput := toUpperCaseLatin1 sampleState.searchInput }
          = filtered toLowerCaseLatin1 sampleState :=
  ⟨by decide, rfl, rfl, by decide, by decide,
    (C1_text_filter toLowerCaseLatin1 (by decide) sampleState rfl rfl).2.2.2.2.1
      (toUpperCaseLatin1 sampleState.searchInput) (by decide)⟩

/-- C2 on a state whose from-date is after its to-date: no todo is kept. -/
theorem C2_date_filter_witness :
    crossedState.fromDateInput = some (some 250) ∧ crossedState.toDateInput = some (some 150)
      ∧ textFiltered asciiLower crossedState = sampleTodos
      ∧ filtered asciiLower crossedState = [] :=
  ⟨rfl, rfl, by decide,
    (C2_date_filter asciiLower crossedState).2.2.2.2.2 250 150 rfl rfl (by decide)⟩

/-- C3 on eleven todos: there are two pages and the first holds ten todos. -/
theorem C3_pagination_witness :
    ceilDiv (filtered asciiLower (loaded (fun _ => 0) (fun _ => 0) elevenTodos)).length LIMIT = 2
      ∧ (pageItems asciiLower (loaded (fun _ => 0) (fun _ => 0) elevenTodos) 1).length = 10 :=
  ⟨by decide,
    (C3_pagination asciiLower (loaded (fun _ => 0) (fun _ => 0) elevenTodos)).2.2.2.2.1 1
      (by decide) (by decide)⟩

/-- C5 on the sample state: the hypotheses hold and the created todo, its
`createdAt` overwritten by the current time, is put in front of the three old
ones. -/
theorem C5_create_witness :
    isBlank sampleState.taskInput = false ∧ sampleState.editingTodoId = none
      ∧ (submit 400 (.ok ⟨201, "call mum", false, [("createdAt", "7")]⟩) sampleState).state.todos
          = ⟨201, "call mum", false, [], 400⟩ :: sampleTodos :=
  ⟨by decide, rfl,
    (C5_create 400 ⟨201, "call mum", false, [("createdAt", "7")]⟩ sampleState
      (by decide) rfl).1⟩

/-- C6 on the sample state with the todo of id 2 being edited: the hypotheses
hold, only the title of that todo changes and `editingTodoId` becomes null. -/
theorem C6_update_witness :
    isBlank editingState.taskInput = false ∧ editingState.editingTodoId = some 2
      ∧ (∃ t ∈ editingState.todos, t.id = 2)
      ∧ (submit 400 (.ok ⟨2, "call mum", false, []⟩) editingState).state.todos
          = [⟨1, "Buy Milk", false, [], 100⟩, ⟨2, "call mum", true, [], 200⟩,
              ⟨3, "MILK run", false, [], 300⟩]
      ∧ (submit 400 (.ok ⟨2, "call mum", false, []⟩) editingState).state.editingTodoId = none :=
  ⟨by decide, rfl, ⟨⟨2, "walk dog", true, [], 200⟩, by decide, rfl⟩, by decide,
    by
      obtain ⟨_, _, h⟩ := C6_update 400 ⟨2, "call mum", false, []⟩ editingState 2 (by decide) rfl
        ⟨⟨2, "walk dog", true, [], 200⟩, by decide, rfl⟩
      exact h.2.2.2.2.2.2.2.1⟩

/-- C7, the clause on kept fields as stated, evaluated: for a response entry
that carries a `createdAt` property, the entry of `todos` does not keep it, so
the remote part of the new `todos` differs from the response. -/
theorem C7_createdAt_overwritten_counterexample :
    (fetchTodos (fun _ => 1000) (fun _ => 0) (.ok datedResponse)
        (State.initial "" "" none none)).state.todos
        = [⟨1, "task", false, [("userId", "1")], 1000⟩]
      ∧ (fetchTodos (fun _ => 1000) (fun _ => 0) (.ok datedResponse)
          (State.initial "" "" none none)).state.todos.map Todo.toRemote ≠ datedResponse := by
  decide

/-- C7 on the response of eleven todos, none of which carries `createdAt`:
every property of every entry is kept. -/
theorem C7_fetch_witness :
    (∀ d ∈ elevenTodos, d.NoCreatedAt)
      ∧ (fetchTodos (fun _ => 1000) (fun _ => 0) (.ok elevenTodos)
          (State.initial "" "" none none)).state.todos.map Todo.toRemote = elevenTodos :=
  ⟨by
      intro d hd kv hkv
      simp [elevenTodos] at hd
      rcases hd with ⟨_, _, rfl⟩
      simp at hkv,
    ((C7_fetch (fun _ => 1000) (fun _ => 0) (State.initial "" "" none none)).1
      elevenTodos).2.2.1
      (by
        intro d hd kv hkv
        simp [elevenTodos] at hd
        rcases hd with ⟨_, _, rfl⟩
        simp at hkv)⟩

/-- C8 on the sample states: a blank task sends no request and leaves the
state unchanged, and a create answered with a response that is not ok leaves
the state unchanged and reports `Failed to add todo`. -/
theorem C8_incomplete_operations_witness :
    isBlank blankState.taskInput = true
      ∧ ((submit 400 (.ok ⟨201, "x", false, []⟩) blankState).state = blankState
          ∧ (submit 400 (.ok ⟨201, "x", false, []⟩) blankState).requests = []
          ∧ (submit 400 (.ok ⟨201, "x", false, []⟩) blankState).error = none)
      ∧ isBlank sampleState.taskInput = false ∧ sampleState.editingTodoId = none
      ∧ ((submit 400 .notOk sampleState).state = sampleState
          ∧ (submit 400 .notOk sampleState).error = some (.message "Failed to add todo")) :=
  ⟨by decide,
    (C8_incomplete_operations 400 blankState).1 (by decide) (.ok ⟨201, "x", false, []⟩),
    by decide, rfl,
    (C8_incomplete_operations 400 sampleState).2.2.1 (by decide) rfl⟩

end TodoList
